import Mathlib

/-!
Verification of the file-set resolution and deduplication core of
`package-lambda.py`, a tool that packages an AWS Lambda function's source
tree and optional library trees into a zip archive.

The embedding is shallow: Python strings are modelled as `List Char`
(`Str`), Python sets as duplicate-free lists built with a set-style `add`
(Python's set iteration order is arbitrary; the list fixes one order,
which no claim depends on), and the filesystem and git subprocess outputs
are passed in explicitly (the script reads them via `os.walk`,
`os.path.exists` and `Popen`).  Each definition mirrors one function of
the script; the line references in the doc comments point into
`src/package-lambda.py`.
-/

/-- Python strings, modelled as lists of characters. -/
abbrev Str := List Char

/-- The `File` namedtuple (line 15): `File = namedtuple("File", ["absolutePath", "relativePath"])`.
Tuple equality compares both fields. -/
structure File where
  absolutePath : Str
  relativePath : Str
deriving DecidableEq, Repr

/-- Splitting a character list at every position where `p` holds, keeping
empty pieces: the splitter underlying Python `str.split(sep)`.  A string
with `n` separator occurrences yields `n + 1` pieces, so the result is
never the empty list; in particular splitting the empty string yields
`[[]]`, a one-element list holding the empty string. -/
def pySplitP (p : Char → Bool) : Str → List Str
  | [] => [[]]
  | x :: xs =>
    match pySplitP p xs with
    | [] => [[]]
    | q :: qs => if p x then [] :: q :: qs else (x :: q) :: qs

/-- Python `s.split(c)` for a single-character separator `c`. -/
def pySplitChar (c : Char) (s : Str) : List Str :=
  pySplitP (fun x => x == c) s

/-- Python `s.split()` (no argument): split on whitespace runs and drop
empty pieces. -/
def pySplitWs (s : Str) : List Str :=
  (pySplitP (fun x => x == ' ' || x == '\t') s).filter (fun piece => !piece.isEmpty)

/-- Python `haystack.find(needle) != -1`: the needle occurs as a
contiguous substring of the haystack. -/
def containsSub (needle : Str) : Str → Bool
  | [] => needle.isEmpty
  | x :: xs => needle.isPrefixOf (x :: xs) || containsSub needle xs

/-- Python `os.path.basename`: everything after the last `/`. -/
def pyBasename (p : Str) : Str :=
  (pySplitChar '/' p).getLastD []

/-- Python `os.path.join(root, name)` for a relative `name`, as produced
by `os.walk`: `root + "/" + name`. -/
def pathJoin (root name : Str) : Str :=
  root ++ ('/' :: name)

/-- Python `set.add`: append the element unless it is already a member.
The lists built with `setAdd` from `[]` are duplicate-free. -/
def setAdd (s : List File) (file : File) : List File :=
  if file ∈ s then s else s ++ [file]

/-- One triple yielded by `os.walk`: the directory being visited and the
plain names of the regular files directly inside it (the `dirs` component
is unused by the script). -/
structure WalkEntry where
  root : Str
  files : List Str
deriving DecidableEq, Repr

/-- The filesystem as the script observes it: `os.path.exists` and
`os.walk`.  `os.walk` called on a directory that does not exist yields no
triples at all (its default `onerror=None` swallows the error), which is
how a concrete `FileSystem` models a missing directory. -/
structure FileSystem where
  pathExists : Str → Bool
  walk : Str → List WalkEntry

/-- `Git.getUncommitedChanges` (lines 41-46) as a function of the
captured stdout of `git status -s`: it returns `stdout.split('\n')`. -/
def getUncommitedChanges (stdout : Str) : List Str :=
  pySplitChar '\n' stdout

/-- `Git.getChecksum` (lines 30-39) as a function of the captured stdout
of `git show-ref`: scan the lines for the first one containing `HEAD` and
return its first whitespace-separated token.  When no line contains
`HEAD` (or the found line has no token) the local variable `hash` is
never assigned and the function raises `NameError`; that fallible outcome
is `none`. -/
def getChecksum (stdout : Str) : Option Str := do
  let row ← (pySplitChar '\n' stdout).find? (fun row => containsSub ['H', 'E', 'A', 'D'] row)
  (pySplitWs row).head?

/-- `Packager.shouldExclude` (lines 73-80): `False` when the exclusion
list is absent or empty, otherwise `True` as soon as some pattern is a
string-prefix of the file's `relativePath` (the fall-through `return
None` of the Python loop is falsy, hence `false`). -/
def shouldExclude (file : File) (exclude : List Str) : Bool :=
  if exclude.isEmpty then false
  else exclude.any (fun pattern => pattern.isPrefixOf file.relativePath)

/-- The body of the inner loop of `Packager.getFileList` (lines 65-70):
each regular file becomes `File(absolute_path, relative_path)` with
`absolute_path = os.path.join(root, candidate_file)` and
`relative_path = absolute_path[len(path)+1:]`; it is added to the set
unless `shouldExclude` holds. -/
def addCandidate (path : Str) (exclude : List Str) (root : Str)
    (f : List File) (candidate_file : Str) : List File :=
  let absolute_path := pathJoin root candidate_file
  let relative_path := absolute_path.drop (path.length + 1)
  let file : File := File.mk absolute_path relative_path
  if !shouldExclude file exclude then setAdd f file else f

/-- `Packager.getFileList` (lines 58-71): walk `path` and run
`addCandidate` on every regular file of every visited directory,
starting from the empty set. -/
def getFileList (fs : FileSystem) (path : Str) (exclude : List Str) : List File :=
  (fs.walk path).foldl (fun f w =>
    w.files.foldl (addCandidate path exclude w.root) f) []

/-- The compiled-bytecode suffix `.pyc` hard-coded at line 87. -/
def pyc : Str := ['.', 'p', 'y', 'c']

/-- The uncompiled counterpart built at lines 88-91:
`File(file.absolutePath[:-1], file.relativePath[:-1])` — both fields with
their last character removed. -/
def uncompiledFile (file : File) : File :=
  File.mk file.absolutePath.dropLast file.relativePath.dropLast

/-- The membership test of line 87 together with line 92: `file` is a
redundant compiled artifact of `file_list` when its `relativePath` ends
in `.pyc` and its uncompiled counterpart is a member of the same list. -/
def isDuplicated (file_list : List File) (file : File) : Bool :=
  pyc.isSuffixOf file.relativePath && decide (uncompiledFile file ∈ file_list)

/-- `Packager.deduplicateFileList` (lines 82-94): collect every member
whose `relativePath` ends in `.pyc` and whose uncompiled counterpart is a
member of the same set, and return the set difference
`file_list - duplicated_files`. -/
def deduplicateFileList (file_list : List File) : List File :=
  let duplicated_files := file_list.filter (fun file => isDuplicated file_list file)
  file_list.filter (fun file => decide (file ∉ duplicated_files))

/-- `Packager.getDeduplicatedFileList` (lines 51-56):
`list(deduplicateFileList(getFileList(path, exclude)))`. -/
def getDeduplicatedFileList (fs : FileSystem) (path : Str) (exclude : List Str) : List File :=
  deduplicateFileList (getFileList fs path exclude)

/-- `files_to_package` (lines 156-175).  `sys.exit(1)` when the source
directory does not exist is `Except.error 1`; otherwise the source list
is followed by the library lists accumulated with `+=` in the order the
library directories were supplied.  Only the source directory's existence
is ever checked.  (`os.path.abspath` depends on the process working
directory and is modelled as the identity: directories are taken as
already absolute.) -/
def files_to_package (fs : FileSystem) (sources : Str) (libraries : List Str)
    (exclude : List Str) : Except Nat (List File) :=
  if fs.pathExists sources = false then Except.error 1
  else
    let source_files := getDeduplicatedFileList fs sources exclude
    let library_files :=
      if libraries.isEmpty then []
      else libraries.foldl (fun acc d => acc ++ getDeduplicatedFileList fs d exclude) []
    Except.ok (source_files ++ library_files)

/-- `zip_filename` (lines 178-185):
`"%s-%s.zip" % (os.path.basename(source_directory), Git.getChecksum(source_directory))`,
`none` when the checksum lookup raises. -/
def zip_filename (showref_stdout : Str) (source_directory : Str) : Option Str :=
  (getChecksum showref_stdout).map (fun git_checksum =>
    pyBasename source_directory ++ ('-' :: git_checksum) ++ ['.', 'z', 'i', 'p'])

/-- Outcome of one run of `package` (lines 200-207): `exited c` models
`sys.exit(c)`, `crashed` an unhandled exception (the `NameError` in
`Git.getChecksum`), `created fn members` a successful run writing archive
`fn` with the given member list. -/
inductive RunResult where
  | exited : Nat → RunResult
  | crashed : RunResult
  | created : Str → List File → RunResult
deriving DecidableEq, Repr

/-- `package` (lines 200-207) with `enforce_strict` (lines 188-197)
inlined: when `strict` is set and `len(Git.getUncommitedChanges(...)) > 0`
the run exits with code 2 before any discovery; then files are resolved,
the archive name derived, and the zip created.  The two git stdout
captures are passed in explicitly. -/
def package (fs : FileSystem) (git_status_stdout git_showref_stdout : Str)
    (strict : Bool) (sources : Str) (libraries : List Str) (exclude : List Str) : RunResult :=
  if strict = true ∧ 0 < (getUncommitedChanges git_status_stdout).length then
    RunResult.exited 2
  else
    match files_to_package fs sources libraries exclude with
    | Except.error code => RunResult.exited code
    | Except.ok files =>
      match zip_filename git_showref_stdout sources with
      | none => RunResult.crashed
      | some output_filename => RunResult.created output_filename files

/-! ### Concrete demonstration data

Small concrete filesystems and git outputs used by the witness and
counterexample theorems. -/

/-- Demonstration source directory `/myFunc`. -/
def myFunc : Str := ['/', 'm', 'y', 'F', 'u', 'n', 'c']

/-- Name of the single source file in the demonstration tree. -/
def aPyName : Str := ['a', '.', 'p', 'y']

/-- The entry discovery produces for `a.py` under `/myFunc`. -/
def aPySrc : File := File.mk (pathJoin myFunc aPyName) aPyName

/-- A library directory that does not exist in `fsDemo`. -/
def missingLib : Str := ['/', 'l', 'i', 'b']

/-- A filesystem holding exactly `/myFunc/a.py`; every other directory is
missing, so `os.walk` yields nothing for it. -/
def fsDemo : FileSystem where
  pathExists := fun p => p == myFunc
  walk := fun p => if p == myFunc then [WalkEntry.mk myFunc [aPyName]] else []

/-- Captured stdout of `git show-ref` in the demonstration repository:
one ref line whose name contains `HEAD`. -/
def showRefDemo : Str := (r"abc1234 refs/remotes/origin/HEAD").data

/-- The archive name the script derives for `/myFunc` at `abc1234`. -/
def zipNameDemo : Str := (r"myFunc-abc1234.zip").data

/-- Name of a compiled artifact whose source lives in another root. -/
def bPycName : Str := ['b', '.', 'p', 'y', 'c']

/-- Name of the source counterpart of `bPycName`. -/
def bPyName : Str := ['b', '.', 'p', 'y']

/-- Demonstration auxiliary library directory `/auxdir`. -/
def auxLib : Str := ['/', 'a', 'u', 'x', 'd', 'i', 'r']

/-- A filesystem where the primary root `/myFunc` holds only `b.pyc` and
the auxiliary root `/auxdir` holds only `b.py`: the source counterpart of
the primary compiled artifact exists only in the auxiliary root. -/
def fsCross : FileSystem where
  pathExists := fun p => p == myFunc || p == auxLib
  walk := fun p =>
    if p == myFunc then [WalkEntry.mk myFunc [bPycName]]
    else if p == auxLib then [WalkEntry.mk auxLib [bPyName]] else []

/-! ### Helper lemmas shared by the claim theorems -/

/-- Membership in the deduplicated list: a member survives iff it is not
a detected redundant compiled artifact of the input list. -/
theorem mem_deduplicateFileList {file_list : List File} {f : File} :
    f ∈ deduplicateFileList file_list ↔
      f ∈ file_list ∧ ¬(pyc.isSuffixOf f.relativePath = true ∧ uncompiledFile f ∈ file_list) := by
  unfold deduplicateFileList
  rw [List.mem_filter, decide_eq_true_iff]
  constructor
  · rintro ⟨hmem, hnd⟩
    refine ⟨hmem, fun hdup => hnd ?_⟩
    rw [List.mem_filter]
    exact ⟨hmem, by simp [isDuplicated, hdup.1, hdup.2]⟩
  · rintro ⟨hmem, hnd⟩
    refine ⟨hmem, fun hdup => hnd ?_⟩
    rw [List.mem_filter] at hdup
    have := hdup.2
    simp only [isDuplicated, Bool.and_eq_true, decide_eq_true_iff] at this
    exact this

/-- A fold that appends `g d` for each directory `d` is the flattening of
the per-directory lists, in order. -/
theorem foldl_append_eq_flatten (g : Str → List File) (l : List Str) (acc : List File) :
    l.foldl (fun acc d => acc ++ g d) acc = acc ++ (l.map g).flatten := by
  induction l generalizing acc with
  | nil => simp
  | cons d rest ih => simp [ih, List.append_assoc]

/-- When the source directory exists, `files_to_package` succeeds and its
result is the deduplicated source list followed by the deduplicated
library lists in the order supplied. -/
theorem files_to_package_ok (fs : FileSystem) (sources : Str) (libraries : List Str)
    (exclude : List Str) (h : fs.pathExists sources = true) :
    files_to_package fs sources libraries exclude =
      Except.ok (getDeduplicatedFileList fs sources exclude ++
        (libraries.map (fun d => getDeduplicatedFileList fs d exclude)).flatten) := by
  unfold files_to_package
  rw [h]
  simp only [Bool.true_eq_false, if_false]
  by_cases hl : libraries.isEmpty
  · rw [if_pos hl]
    rw [List.isEmpty_iff] at hl
    subst hl
    simp
  · rw [if_neg hl, foldl_append_eq_flatten]
    simp

/-- A string ending in `.py` does not also end in `.pyc` (the last
characters differ). -/
theorem not_pyc_suffix_of_py_suffix {p : Str}
    (hp : List.isSuffixOf ['.', 'p', 'y'] p = true) :
    pyc.isSuffixOf p = false := by
  by_contra hc
  rw [Bool.not_eq_false] at hc
  obtain ⟨q, hq⟩ := List.isSuffixOf_iff_suffix.mp hp
  obtain ⟨q2, hq2⟩ := List.isSuffixOf_iff_suffix.mp hc
  have h1 : p.getLast? = some 'y' := by
    rw [← hq]
    have hsplit : q ++ ['.', 'p', 'y'] = (q ++ ['.', 'p']) ++ ['y'] := by simp
    rw [hsplit]
    simp
  have h2 : p.getLast? = some 'c' := by
    rw [← hq2]
    have hsplit : q2 ++ pyc = (q2 ++ ['.', 'p', 'y']) ++ ['c'] := by simp [pyc]
    rw [hsplit]
    simp
  rw [h1] at h2
  simp at h2

/-- An exclusion list containing the empty string excludes every file:
the empty pattern is a string-prefix of every relative path. -/
theorem shouldExclude_of_nil_rule (file : File) (exclude : List Str)
    (hmem : [] ∈ exclude) : shouldExclude file exclude = true := by
  unfold shouldExclude
  have hne : exclude.isEmpty = false := by
    cases exclude with
    | nil => cases hmem
    | cons a l => rfl
  rw [hne]
  simp only [Bool.false_eq_true, if_false]
  exact List.any_eq_true.mpr ⟨[], hmem, List.isPrefixOf_nil_left⟩

/-- When the empty string is among the exclusion rules, `addCandidate`
drops every candidate. -/
theorem addCandidate_of_nil_rule (path : Str) (exclude : List Str) (root : Str)
    (hmem : [] ∈ exclude) (acc : List File) (name : Str) :
    addCandidate path exclude root acc name = acc := by
  simp only [addCandidate]
  rw [shouldExclude_of_nil_rule _ _ hmem]
  rfl

/-- When the empty string is among the exclusion rules, the inner
discovery loop leaves its accumulator unchanged. -/
theorem foldl_addCandidate_nil_rule (path : Str) (exclude : List Str)
    (hmem : [] ∈ exclude) (root : Str) (names : List Str) (acc : List File) :
    names.foldl (addCandidate path exclude root) acc = acc := by
  induction names generalizing acc with
  | nil => rfl
  | cons n rest ih =>
    rw [List.foldl_cons, addCandidate_of_nil_rule path exclude root hmem acc n, ih]

/-- When the empty string is among the exclusion rules, discovery
produces the empty set. -/
theorem getFileList_nil_rule (fs : FileSystem) (path : Str) (exclude : List Str)
    (hmem : [] ∈ exclude) : getFileList fs path exclude = [] := by
  unfold getFileList
  generalize fs.walk path = ws
  have hall : ∀ (ws : List WalkEntry) (acc : List File),
      ws.foldl (fun f w => w.files.foldl (addCandidate path exclude w.root) f) acc = acc := by
    intro ws
    induction ws with
    | nil => intro acc; rfl
    | cons w rest ih =>
      intro acc
      simp only [List.foldl_cons]
      rw [foldl_addCandidate_nil_rule path exclude hmem, ih]
  exact hall ws []

/-- Walking a directory that yields no triples (in particular a missing
directory) discovers nothing. -/
theorem getFileList_walk_nil (fs : FileSystem) (path : Str) (exclude : List Str)
    (h : fs.walk path = []) : getFileList fs path exclude = [] := by
  unfold getFileList
  rw [h]
  rfl

/-! ### Claim theorems -/

/-- C2: for every file set that contains, under the same root, both a
source entry with relative path `p` (ending in `.py`) and the compiled
entry whose relative path is `p` with the compiled suffix appended
(`p ++ "c"`, ending in `.pyc`), `deduplicateFileList` keeps the source
entry and removes the compiled entry. -/
theorem C2_dedup_removes_redundant_compiled (S : List File) (r p : Str)
    (hp : List.isSuffixOf ['.', 'p', 'y'] p = true)
    (hsrc : File.mk (pathJoin r p) p ∈ S)
    (_hcmp : File.mk (pathJoin r (p ++ ['c'])) (p ++ ['c']) ∈ S) :
    File.mk (pathJoin r p) p ∈ deduplicateFileList S ∧
      File.mk (pathJoin r (p ++ ['c'])) (p ++ ['c']) ∉ deduplicateFileList S := by
  have hjoin : pathJoin r (p ++ ['c']) = pathJoin r p ++ ['c'] := by
    simp [pathJoin]
  have huncmp : uncompiledFile (File.mk (pathJoin r (p ++ ['c'])) (p ++ ['c'])) =
      File.mk (pathJoin r p) p := by
    simp only [uncompiledFile, hjoin]
    rw [List.dropLast_concat, List.dropLast_concat]
  have hpycSfx : pyc.isSuffixOf (p ++ ['c']) = true := by
    obtain ⟨q, hq⟩ := List.isSuffixOf_iff_suffix.mp hp
    rw [List.isSuffixOf_iff_suffix]
    exact ⟨q, by rw [← hq]; simp [pyc]⟩
  constructor
  · refine mem_deduplicateFileList.mpr ⟨hsrc, ?_⟩
    rintro ⟨hsfx, -⟩
    rw [not_pyc_suffix_of_py_suffix hp] at hsfx
    exact Bool.false_ne_true hsfx
  · intro hmem
    exact (mem_deduplicateFileList.mp hmem).2 ⟨hpycSfx, by rw [huncmp]; exact hsrc⟩

/-- Witness for C2: with `a.py` and `a.pyc` both discovered under
`/myFunc`, deduplication keeps `a.py` and drops `a.pyc`. -/
theorem C2_witness :
    File.mk (pathJoin myFunc aPyName) aPyName ∈
      deduplicateFileList [File.mk (pathJoin myFunc aPyName) aPyName,
        File.mk (pathJoin myFunc (aPyName ++ ['c'])) (aPyName ++ ['c'])] ∧
    File.mk (pathJoin myFunc (aPyName ++ ['c'])) (aPyName ++ ['c']) ∉
      deduplicateFileList [File.mk (pathJoin myFunc aPyName) aPyName,
        File.mk (pathJoin myFunc (aPyName ++ ['c'])) (aPyName ++ ['c'])] :=
  C2_dedup_removes_redundant_compiled _ myFunc aPyName (by decide) (by decide) (by decide)

/-- C3: deduplication never removes a member whose paired source
counterpart (an entry whose relative path is the compiled path with its
final character stripped) is absent from the same set, and never removes
a member that is not a `.pyc` compiled artifact at all. -/
theorem C3_dedup_never_removes_orphans (S : List File) (f : File) (hf : f ∈ S) :
    (pyc.isSuffixOf f.relativePath = false → f ∈ deduplicateFileList S) ∧
    ((∀ g ∈ S, g.relativePath ≠ f.relativePath.dropLast) → f ∈ deduplicateFileList S) := by
  constructor
  · intro hnc
    refine mem_deduplicateFileList.mpr ⟨hf, ?_⟩
    rintro ⟨hsfx, -⟩
    rw [hnc] at hsfx
    exact Bool.false_ne_true hsfx
  · intro hng
    refine mem_deduplicateFileList.mpr ⟨hf, ?_⟩
    rintro ⟨-, hmem⟩
    exact hng (uncompiledFile f) hmem rfl

/-- Witness for C3: a lone `b.pyc` with no source counterpart in its set
survives deduplication. -/
theorem C3_witness :
    File.mk (pathJoin myFunc bPycName) bPycName ∈
      deduplicateFileList [File.mk (pathJoin myFunc bPycName) bPycName] :=
  (C3_dedup_never_removes_orphans _ _ (by decide)).2 (by decide)

/-- C4: on a file set with no compiled-artifact entry whose source
counterpart is also in the set, `deduplicateFileList` is the identity. -/
theorem C4_dedup_is_identity_without_duplicates (S : List File)
    (h : ∀ f ∈ S, pyc.isSuffixOf f.relativePath = true → uncompiledFile f ∉ S) :
    deduplicateFileList S = S := by
  unfold deduplicateFileList
  have hdup : S.filter (fun file => isDuplicated S file) = [] := by
    rw [List.filter_eq_nil_iff]
    intro f hf
    simp only [isDuplicated, Bool.and_eq_true, decide_eq_true_iff, not_and]
    exact fun h1 => h f hf h1
  rw [hdup]
  exact List.filter_eq_self.mpr (fun f hf => by simp)

/-- Witness for C4: a set holding only `a.py` is left unchanged. -/
theorem C4_witness :
    deduplicateFileList [File.mk (pathJoin myFunc aPyName) aPyName] =
      [File.mk (pathJoin myFunc aPyName) aPyName] :=
  C4_dedup_is_identity_without_duplicates _ (by decide)

/-- C5: with a non-empty exclusion list, a candidate is excluded iff
some rule string is a plain string-prefix of its relative path — the
test is not aware of path segments, so the characterization is purely
`∃ rest, rule ++ rest = relativePath`. -/
theorem C5_exclusion_is_plain_string_match (file : File) (exclude : List Str)
    (h : exclude ≠ []) :
    shouldExclude file exclude = true ↔
      ∃ pat ∈ exclude, ∃ rest, pat ++ rest = file.relativePath := by
  unfold shouldExclude
  rw [if_neg (fun hh => h (List.isEmpty_iff.mp hh))]
  rw [List.any_eq_true]
  constructor
  · rintro ⟨pat, hpat, hpre⟩
    exact ⟨pat, hpat, List.isPrefixOf_iff_prefix.mp hpre⟩
  · rintro ⟨pat, hpat, rest, hrest⟩
    exact ⟨pat, hpat, List.isPrefixOf_iff_prefix.mpr ⟨rest, hrest⟩⟩

/-- Witness for C5: the rule `lib` excludes the file at
`libstuff/helper.py` even though `libstuff` is a different path segment. -/
theorem C5_witness :
    shouldExclude
      (File.mk ((r"/r/libstuff/helper.py").data) ((r"libstuff/helper.py").data))
      [(r"lib").data] = true :=
  (C5_exclusion_is_plain_string_match _ _ (by decide)).mpr
    ⟨(r"lib").data, by decide, (r"stuff/helper.py").data, by decide⟩

/-- C10: an exclusion list containing the empty string excludes every
file (every relative path starts with the empty string), so discovery
returns the empty set; an empty exclusion list excludes nothing. -/
theorem C10_empty_string_rule_excludes_everything :
    (∀ (file : File) (exclude : List Str), [] ∈ exclude →
      shouldExclude file exclude = true) ∧
    (∀ file : File, shouldExclude file [] = false) ∧
    (∀ (fs : FileSystem) (path : Str) (exclude : List Str), [] ∈ exclude →
      getFileList fs path exclude = []) :=
  ⟨fun file exclude hmem => shouldExclude_of_nil_rule file exclude hmem,
   fun _ => rfl,
   fun fs path exclude hmem => getFileList_nil_rule fs path exclude hmem⟩

/-- Witness for C10: under the rule list `[""]` the demonstration file
is excluded and discovery over `/myFunc` comes back empty. -/
theorem C10_witness :
    shouldExclude aPySrc [([] : Str)] = true ∧
    getFileList fsDemo myFunc [([] : Str)] = [] :=
  ⟨C10_empty_string_rule_excludes_everything.1 aPySrc [([] : Str)] (by decide),
   C10_empty_string_rule_excludes_everything.2.2 fsDemo myFunc [([] : Str)] (by decide)⟩

/-- C6 counterexample: the claim says a missing library directory, like a
missing source directory, aborts the run.  In fact `files_to_package`
checks existence only for the source directory; here `/lib` does not
exist in `fsDemo`, yet the run completes and creates the archive with the
source files alone — the missing library is silently skipped. -/
theorem C6_counterexample_missing_library_is_skipped :
    fsDemo.pathExists missingLib = false ∧
    package fsDemo [] showRefDemo false myFunc [missingLib] [] =
      RunResult.created zipNameDemo [aPySrc] := by
  constructor
  · rfl
  · decide

/-- C6 amended: a missing primary source directory aborts the run with
exit code 1; a library directory whose walk yields nothing (in
particular a missing one, since `os.walk` of a missing directory yields
no triples) is silently skipped: it contributes no files and the run is
unchanged by it. -/
theorem C6_missing_source_aborts_missing_library_skipped :
    (∀ (fs : FileSystem) (sources : Str) (libraries : List Str) (exclude : List Str),
      fs.pathExists sources = false →
      files_to_package fs sources libraries exclude = Except.error 1) ∧
    (∀ (fs : FileSystem) (sources : Str) (libraries : List Str) (d : Str)
      (exclude : List Str), fs.walk d = [] →
      files_to_package fs sources (libraries ++ [d]) exclude =
        files_to_package fs sources libraries exclude) := by
  constructor
  · intro fs s libs e h
    unfold files_to_package
    rw [h]
    rfl
  · intro fs s libs d e hwalk
    by_cases hex : fs.pathExists s = true
    · rw [files_to_package_ok fs s (libs ++ [d]) e hex, files_to_package_ok fs s libs e hex]
      have hd : getDeduplicatedFileList fs d e = [] := by
        unfold getDeduplicatedFileList
        rw [getFileList_walk_nil fs d e hwalk]
        rfl
      simp [hd]
    · rw [Bool.not_eq_true] at hex
      unfold files_to_package
      rw [hex]
      rfl

/-- Witness for the amended C6: `files_to_package` rooted at the missing
`/lib` exits with code 1, while appending the missing `/lib` as a library
leaves the run's result unchanged. -/
theorem C6_witness :
    files_to_package fsDemo missingLib [] [] = Except.error 1 ∧
    files_to_package fsDemo myFunc [missingLib] [] = files_to_package fsDemo myFunc [] [] :=
  ⟨C6_missing_source_aborts_missing_library_skipped.1 fsDemo missingLib [] [] (by decide),
   C6_missing_source_aborts_missing_library_skipped.2 fsDemo myFunc [] missingLib [] (by decide)⟩

/-- C7: when the source directory exists, the resolved member list is the
independently deduplicated primary set followed by the independently
deduplicated auxiliary sets, in the order the library directories were
supplied. -/
theorem C7_primary_before_auxiliaries_in_order (fs : FileSystem) (sources : Str)
    (libraries : List Str) (exclude : List Str) (h : fs.pathExists sources = true) :
    files_to_package fs sources libraries exclude =
      Except.ok (getDeduplicatedFileList fs sources exclude ++
        (libraries.map (fun d => getDeduplicatedFileList fs d exclude)).flatten) :=
  files_to_package_ok fs sources libraries exclude h

/-- Witness for C7 on the two-root filesystem: the primary `/myFunc`
group comes first, then the auxiliary `/auxdir` group. -/
theorem C7_witness :
    files_to_package fsCross myFunc [auxLib] [] =
      Except.ok (getDeduplicatedFileList fsCross myFunc [] ++
        ([auxLib].map (fun d => getDeduplicatedFileList fsCross d [])).flatten) :=
  C7_primary_before_auxiliaries_in_order fsCross myFunc [auxLib] [] (by decide)

/-- C8: the archive name is the source directory's base name, a hyphen,
the revision identifier extracted from the version-control query, and
`.zip`; when no revision identifier can be obtained the naming step
fails and the whole run aborts (unhandled exception) instead of creating
an archive. -/
theorem C8_archive_name_and_revision_failure (showref source : Str) :
    (∀ h, getChecksum showref = some h →
      zip_filename showref source =
        some (pyBasename source ++ ('-' :: h) ++ ['.', 'z', 'i', 'p'])) ∧
    (getChecksum showref = none → zip_filename showref source = none) ∧
    (∀ (fs : FileSystem) (status : Str) (libraries : List Str) (exclude : List Str),
      fs.pathExists source = true → getChecksum showref = none →
      package fs status showref false source libraries exclude = RunResult.crashed) := by
  refine ⟨?_, ?_, ?_⟩
  · intro h hsome
    unfold zip_filename
    rw [hsome]
    rfl
  · intro hnone
    unfold zip_filename
    rw [hnone]
    rfl
  · intro fs st libs e hex hnone
    unfold package
    rw [if_neg (by simp)]
    rw [files_to_package_ok fs source libs e hex]
    unfold zip_filename
    rw [hnone]
    rfl

/-- Witness for C8: in the demonstration repository the checksum resolves
to `abc1234` and the archive for `/myFunc` is named `myFunc-abc1234.zip`. -/
theorem C8_witness :
    zip_filename showRefDemo myFunc =
      some (pyBasename myFunc ++ ('-' :: (r"abc1234").data) ++ ['.', 'z', 'i', 'p']) :=
  (C8_archive_name_and_revision_failure showRefDemo myFunc).1 ((r"abc1234").data) (by decide)

/-- C9: deduplication is applied per root and never across roots: a
compiled artifact discovered in the primary root (or in any auxiliary
root) whose uncompiled counterpart is absent from that same root's set
always appears in the final member list, whatever the other roots
contain. -/
theorem C9_dedup_never_crosses_roots (fs : FileSystem) (sources : Str)
    (libraries : List Str) (exclude : List Str) (f : File)
    (hex : fs.pathExists sources = true) :
    ((f ∈ getFileList fs sources exclude → pyc.isSuffixOf f.relativePath = true →
      uncompiledFile f ∉ getFileList fs sources exclude →
      ∃ members, files_to_package fs sources libraries exclude = Except.ok members ∧
        f ∈ members)) ∧
    (∀ d ∈ libraries, f ∈ getFileList fs d exclude →
      pyc.isSuffixOf f.relativePath = true →
      uncompiledFile f ∉ getFileList fs d exclude →
      ∃ members, files_to_package fs sources libraries exclude = Except.ok members ∧
        f ∈ members) := by
  constructor
  · intro hmem hsfx habs
    refine ⟨_, files_to_package_ok fs sources libraries exclude hex, ?_⟩
    apply List.mem_append_left
    exact mem_deduplicateFileList.mpr ⟨hmem, fun h2 => habs h2.2⟩
  · intro d hd hmem hsfx habs
    refine ⟨_, files_to_package_ok fs sources libraries exclude hex, ?_⟩
    apply List.mem_append_right
    rw [List.mem_flatten]
    refine ⟨getDeduplicatedFileList fs d exclude, List.mem_map_of_mem _ hd, ?_⟩
    exact mem_deduplicateFileList.mpr ⟨hmem, fun h2 => habs h2.2⟩

/-- Witness for C9: in `fsCross` the primary root holds only `b.pyc` and
the auxiliary root holds its source `b.py`; the compiled artifact is
kept in the final member list even though its source counterpart sits in
the auxiliary set. -/
theorem C9_witness :
    (∃ members, files_to_package fsCross myFunc [auxLib] [] = Except.ok members ∧
      File.mk (pathJoin myFunc bPycName) bPycName ∈ members) ∧
    File.mk (pathJoin auxLib bPyName) bPyName ∈ getFileList fsCross auxLib [] := by
  constructor
  · exact (C9_dedup_never_crosses_roots fsCross myFunc [auxLib] []
      (File.mk (pathJoin myFunc bPycName) bPycName) (by decide)).1
      (by decide) (by decide) (by decide)
  · decide

/-- C1 (code bug evidence): `''.split('\n')` in Python is `['']`, a
one-element list, so `Git.getUncommitedChanges` returns a non-empty list
even for a clean working tree and `enforce_strict` exits with code 2
unconditionally.  On the demonstration filesystem a strict run with
empty `git status -s` output aborts with exit code 2, while the same run
without strict mode succeeds end to end. -/
theorem C1_strict_mode_aborts_even_on_clean_tree :
    getUncommitedChanges [] = [[]] ∧
    package fsDemo [] showRefDemo true myFunc [] [] = RunResult.exited 2 ∧
    package fsDemo [] showRefDemo false myFunc [] [] =
      RunResult.created zipNameDemo [aPySrc] := by
  refine ⟨rfl, rfl, ?_⟩
  decide
